import Mathlib

/-
Verification of the Thread-Talk chat server core (src/server/app.py and
src/server/db_utils.py), shallowly embedded in Lean 4.

Python dictionaries are modelled as association lists with unique keys
(insertion-ordered, as in CPython); the JSON file store is part of the
server state: the users file, the groups file, and one entry per
conversation log file, keyed by its filename.  Wall-clock readings
(datetime.now().timestamp()) and generated group ids (uuid4) are external
inputs and appear as explicit parameters.  A Python KeyError raised by a
handler is an Except.error.
-/

namespace ThreadTalk

/-! ## Python dict model -/

/-- First-match lookup, `d.get(k)` / `d[k]`. -/
def dlookup {α : Type} : List (String × α) → String → Option α
  | [], _ => none
  | (k, v) :: t, key => if key = k then some v else dlookup t key

/-- Dict assignment `d[k] = v`: replace in place, else append (CPython
insertion order). -/
def dset {α : Type} : List (String × α) → String → α → List (String × α)
  | [], key, v => [(key, v)]
  | (k, w) :: t, key, v =>
    if k = key then (k, v) :: t else (k, w) :: dset t key v

/-- Dict removal `d.pop(k)`: drop the first entry with the given key. -/
def dpop {α : Type} : List (String × α) → String → List (String × α)
  | [], _ => []
  | (k, w) :: t, key => if k = key then t else (k, w) :: dpop t key

/-! ## Data model -/

/-- A persisted chat message, as built by `db_utils.save_message`.
Timestamps are modelled as rationals (Python floats). -/
structure Msg where
  fromUser : String
  text : String
  timestamp : ℚ
deriving DecidableEq, Repr

/-- A group record as stored in groups.json. -/
structure Group where
  name : String
  members : List String
deriving DecidableEq, Repr

/-- Whole server state: the two in-memory presence maps of app.py plus the
on-disk JSON resources managed by db_utils. -/
structure ServerState where
  connected_users : List (String × String)
  sid_to_user : List (String × String)
  users : List (String × String)
  groups : List (String × Group)
  msgFiles : List (String × List Msg)
deriving DecidableEq, Repr

/-- Fresh server process over an empty data directory. -/
def initState : ServerState := ⟨[], [], [], [], []⟩

/-! ## db_utils.py -/

def DATA_DIR : String := "data"

def MSG_DIR : String := DATA_DIR ++ "/messages"

/-- db_utils.get_users. -/
def get_users (s : ServerState) : List (String × String) := s.users

/-- db_utils.get_user_list_public. -/
def get_user_list_public (s : ServerState) : List String :=
  (get_users s).map Prod.fst

/-- db_utils.get_groups. -/
def get_groups (s : ServerState) : List (String × Group) := s.groups

/-- db_utils.create_group; the uuid-derived id is an external input. -/
def create_group (s : ServerState) (gid name creator : String) :
    ServerState × String × Group :=
  let g : Group := ⟨name, [creator]⟩
  ({ s with groups := dset s.groups gid g }, gid, g)

/-- db_utils.add_member_to_group. -/
def add_member_to_group (s : ServerState) (gid username : String) :
    ServerState × Bool :=
  match dlookup (get_groups s) gid with
  | some g =>
    if username ∈ g.members then (s, false)
    else
      ({ s with groups := dset s.groups gid { g with members := g.members ++ [username] } },
       true)
  | none => (s, false)

/-- Python's lexicographic code-point comparison on strings, on the
character lists. -/
def charListLt : List Char → List Char → Bool
  | [], [] => false
  | [], _ :: _ => true
  | _ :: _, [] => false
  | c :: cs, d :: ds => if c < d then true else if d < c then false else charListLt cs ds

/-- Python string comparison a <= b (code-point lexicographic). -/
def pyLe (a b : String) : Bool := ! charListLt b.data a.data

/-- db_utils._get_chat_filename: the canonical conversation key.  Python
sorted([u1, u2]) on a two-element list is the ordered pair under
lexicographic string comparison. -/
def get_chat_filename (target_type u1 u2_or_gid : String) : String :=
  if target_type = "group" then
    MSG_DIR ++ "/group_" ++ u2_or_gid ++ ".json"
  else
    let participants := if pyLe u1 u2_or_gid then (u1, u2_or_gid) else (u2_or_gid, u1)
    MSG_DIR ++ "/private_" ++ participants.1 ++ "_" ++ participants.2 ++ ".json"

/-- The stored log of one conversation file; a missing file reads as the
empty list (db_utils._load_json default). -/
def chatLog (s : ServerState) (filepath : String) : List Msg :=
  (dlookup s.msgFiles filepath).getD []

/-- db_utils.save_message; the datetime.now().timestamp() reading is the
explicit parameter t. -/
def save_message (s : ServerState) (t : ℚ)
    (target_type sender target_id text : String) : ServerState × Msg :=
  let filepath := get_chat_filename target_type sender target_id
  let history := chatLog s filepath
  let msg : Msg := ⟨sender, text, t⟩
  ({ s with msgFiles := dset s.msgFiles filepath (history ++ [msg]) }, msg)

/-- The state change save_message performs: append one message to one
conversation file. -/
def appendMsg (s : ServerState) (f : String) (m : Msg) : ServerState :=
  { s with msgFiles := dset s.msgFiles f (chatLog s f ++ [m]) }

/-- db_utils.load_history. -/
def load_history (s : ServerState) (target_type username target_id : String) :
    List Msg :=
  chatLog s (get_chat_filename target_type username target_id)

/-! ## app.py handlers -/

/-- A Python exception escaping a handler. -/
inductive PyErr
  | keyError
deriving DecidableEq, Repr

instance {ε α : Type} [DecidableEq ε] [DecidableEq α] :
    DecidableEq (Except ε α) := fun x y =>
  match x, y with
  | .ok a, .ok b =>
    if h : a = b then .isTrue (by rw [h]) else .isFalse (fun he => by cases he; exact h rfl)
  | .error a, .error b =>
    if h : a = b then .isTrue (by rw [h]) else .isFalse (fun he => by cases he; exact h rfl)
  | .ok _, .error _ => .isFalse (fun he => by cases he)
  | .error _, .ok _ => .isFalse (fun he => by cases he)

/-- Return value of the login handler. -/
inductive LoginResult
  | ok (users : List String) (groups : List (String × Group))
  | error (msg : String)
deriving DecidableEq, Repr

def LoginResult.isOk : LoginResult → Bool
  | .ok _ _ => true
  | .error _ => false

/-- The receive_message payload emitted by send_message. -/
structure Payload where
  targetId : String
  fromUser : String
  text : String
  timestamp : ℚ
  type : String
deriving DecidableEq, Repr

/-- A sio.emit call: event name, destination sid, payload. -/
inductive Emit
  | receive_message (tosid : String) (p : Payload)
  | group_created (tosid : String) (gid name : String) (members : List String)
  | member_added (tosid : String) (gid name : String) (members : List String)
deriving DecidableEq, Repr

/-- Return value of the add_member handler. -/
inductive Status
  | ok
  | error
deriving DecidableEq, Repr

/-- app.py disconnect: pop the sid from sid_to_user; drop the
connected_users entry only if this sid is still the active one. -/
def disconnect (s : ServerState) (sid : String) : ServerState :=
  match dlookup s.sid_to_user sid with
  | none => s
  | some user =>
    let s1 := { s with sid_to_user := dpop s.sid_to_user sid }
    if dlookup s1.connected_users user = some sid then
      { s1 with connected_users := dpop s1.connected_users user }
    else s1

/-- app.py login: auto-register an unseen username, then compare the
stored password by plain equality; on success register the session in
both presence maps and return the public user list and this user's
groups. -/
def login (s : ServerState) (sid u p : String) : ServerState × LoginResult :=
  let s :=
    if (dlookup (get_users s) u).isSome then s
    else { s with users := dset s.users u p }
  if dlookup (get_users s) u = some p then
    let s := { s with
      connected_users := dset s.connected_users u sid,
      sid_to_user := dset s.sid_to_user sid u }
    (s, .ok (get_user_list_public s)
            ((get_groups s).filter fun g => u ∈ g.2.members))
  else
    (s, .error "Invalid credentials")

/-- app.py fetch_history: sid_to_user[sid] raises KeyError for an unknown
sid; otherwise return the stored log.  The state is returned unchanged
(the handler performs no write). -/
def fetch_history (s : ServerState) (sid target_type target_id : String) :
    Except PyErr (ServerState × List Msg) :=
  match dlookup s.sid_to_user sid with
  | none => .error .keyError
  | some user => .ok (s, load_history s target_type user target_id)

/-- app.py send_message: resolve the sender from sid_to_user (KeyError if
absent), persist via save_message, echo to the sender, then fan out to
the online private peer or the online other group members. -/
def send_message (s : ServerState) (t : ℚ)
    (sid target_type target_id text : String) :
    Except PyErr (ServerState × List Emit) :=
  match dlookup s.sid_to_user sid with
  | none => .error .keyError
  | some sender =>
    let sm := save_message s t target_type sender target_id text
    let s := sm.1
    let msg := sm.2
    let response : Payload :=
      ⟨if target_type = "group" then target_id else sender,
       sender, text, msg.timestamp, target_type⟩
    if target_type = "private" then
      let ds := [Emit.receive_message sid { response with targetId := target_id }]
      let ds :=
        match dlookup s.connected_users target_id with
        | some tsid => ds ++ [Emit.receive_message tsid response]
        | none => ds
      .ok (s, ds)
    else if target_type = "group" then
      let ds := [Emit.receive_message sid { response with targetId := target_id }]
      let ds :=
        match dlookup (get_groups s) target_id with
        | some g =>
          ds ++ g.members.filterMap fun member =>
            if member ≠ sender then
              (dlookup s.connected_users member).map fun msid =>
                Emit.receive_message msid { response with targetId := target_id }
            else none
        | none => ds
      .ok (s, ds)
    else
      .ok (s, [])

/-- app.py create_new_group: sid_to_user[sid] raises KeyError for an
unknown sid; otherwise create the group (uuid id is the gid parameter)
and notify the creator. -/
def create_new_group (s : ServerState) (gid sid name : String) :
    Except PyErr (ServerState × List Emit) :=
  match dlookup s.sid_to_user sid with
  | none => .error .keyError
  | some creator =>
    let cg := create_group s gid name creator
    .ok (cg.1, [Emit.group_created sid cg.2.1 cg.2.2.name cg.2.2.members])

/-- app.py add_member: no session lookup at all; mutate via
add_member_to_group, then notify the new member and all members. -/
def add_member (s : ServerState) (sid gid new_user : String) :
    Except PyErr (ServerState × List Emit × Status) :=
  let am := add_member_to_group s gid new_user
  let s := am.1
  if am.2 then
    match dlookup (get_groups s) gid with
    | some group =>
      let e1 :=
        match dlookup s.connected_users new_user with
        | some nsid => [Emit.group_created nsid gid group.name group.members]
        | none => []
      let e2 := group.members.filterMap fun m =>
        (dlookup s.connected_users m).map fun msid =>
          Emit.member_added msid gid group.name group.members
      .ok (s, e1 ++ e2, .ok)
    | none => .error .keyError
  else
    .ok (s, [], .error)

/-! ## Presence event traces (for the single-session invariant) -/

/-- A connection-lifecycle event hitting the presence registry. -/
inductive Event
  | elogin (sid u p : String)
  | edisconnect (sid : String)

def step (s : ServerState) : Event → ServerState
  | .elogin sid u p => (login s sid u p).1
  | .edisconnect sid => disconnect s sid

/-- The state after a sequence of login/disconnect events on a fresh
process. -/
def run (evs : List Event) : ServerState := evs.foldl step initState

/-! ## Derived definitions, invariants and concrete fixtures -/

/-- The membership invariant of the groups file: every member list is
duplicate-free. -/
def GroupsOk (s : ServerState) : Prop :=
  ∀ e ∈ s.groups, e.2.members.Nodup

instance (s : ServerState) : Decidable (GroupsOk s) := by
  unfold GroupsOk
  infer_instance

/-- A sequence of add_member_to_group calls (any groups, any users). -/
def addCalls (s : ServerState) : List (String × String) → ServerState
  | [] => s
  | c :: cs => addCalls (add_member_to_group s c.1 c.2).1 cs

/-- Invariant: the presence map has duplicate-free keys (it is a true
dictionary: each identity holds at most one entry). -/
def cuKeysNodup (s : ServerState) : Prop :=
  (s.connected_users.map Prod.fst).Nodup

/-- Whether a handler finished without a Python exception. -/
def handlerOk {α : Type} : Except PyErr α → Bool
  | .ok _ => true
  | .error _ => false

/-- The post-state of an add_member call that did not raise. -/
def addMemberStateOf : Except PyErr (ServerState × List Emit × Status) → ServerState
  | .ok r => r.1
  | .error _ => initState

/-- One completed send at the persistence layer: the clock reading and
the save_message arguments. -/
structure SaveReq where
  t : ℚ
  target_type : String
  sender : String
  target_id : String
  text : String
deriving DecidableEq, Repr

/-- The conversation file a send is appended to. -/
def SaveReq.file (r : SaveReq) : String :=
  get_chat_filename r.target_type r.sender r.target_id

/-- The message object save_message builds for a send. -/
def SaveReq.msg (r : SaveReq) : Msg := ⟨r.sender, r.text, r.t⟩

/-- A sequence of completed sends, in log-append completion order. -/
def runSaves (s : ServerState) : List SaveReq → ServerState
  | [] => s
  | r :: rs => runSaves (save_message s r.t r.target_type r.sender r.target_id r.text).1 rs

/-- The timestamp column of one conversation log. -/
def tsOf (s : ServerState) (f : String) : List ℚ :=
  (chatLog s f).map Msg.timestamp

/-- A server whose groups file holds one group g1 with sole member
alice. -/
def c6state : ServerState :=
  { initState with groups := [("g1", ⟨"G", ["alice"]⟩)] }

/-- A server with one registered logged-in user alice and one group; the
handle "ghost" has never logged in. -/
def c10state : ServerState :=
  { initState with
      sid_to_user := [("sid-alice", "alice")],
      connected_users := [("alice", "sid-alice")],
      users := [("alice", "pw")],
      groups := [("g1", ⟨"G", ["alice"]⟩)] }

/-- A server where group g1 has members a, b, c; a and b are online, c
is not; sa is a's live connection. -/
def c4state : ServerState :=
  { initState with
      sid_to_user := [("sa", "a"), ("sb", "b")],
      connected_users := [("a", "sa"), ("b", "sb")],
      groups := [("g1", ⟨"G", ["a", "b", "c"]⟩)] }

/-- A server where identity u logged in on sid1 and then again on sid2:
sid1 is superseded (connected_users points to sid2) but still present in
sid_to_user, exactly as app.py leaves it. -/
def c7state : ServerState :=
  (login (login initState "sid1" "u" "pw").1 "sid2" "u" "pw").1

/-- The server after alice logged in on handle "sid". -/
def c3state : ServerState := (login initState "sid" "alice" "pw").1

/-- Two sends into the alice/bob private conversation, one from each
side (they address the same canonical file). -/
def c3reqs : List SaveReq :=
  [⟨1, "private", "alice", "bob", "hi"⟩, ⟨2, "private", "bob", "alice", "yo"⟩]

/-- Three sends with non-decreasing clock readings: two into the
alice/bob private conversation, one into group g1. -/
def c8reqs : List SaveReq :=
  [⟨1, "private", "alice", "bob", "a"⟩, ⟨2, "group", "alice", "g1", "b"⟩,
   ⟨2, "private", "bob", "alice", "c"⟩]

/-! ## Dictionary lemmas -/

theorem dlookup_dset {α : Type} (m : List (String × α)) (k k2 : String) (v : α) :
    dlookup (dset m k v) k2 = if k2 = k then some v else dlookup m k2 := by
  induction m with
  | nil => simp [dset, dlookup]
  | cons hd t ih =>
    obtain ⟨k0, w⟩ := hd
    by_cases h1 : k0 = k
    · subst h1
      simp only [dset, if_pos rfl, dlookup]
      split_ifs <;> simp_all [dlookup]
    · simp only [dset, if_neg h1, dlookup, ih]
      split_ifs <;> simp_all

theorem dpop_sublist {α : Type} (m : List (String × α)) (k : String) :
    List.Sublist (dpop m k) m := by
  induction m with
  | nil => simp [dpop]
  | cons hd t ih =>
    obtain ⟨k0, w⟩ := hd
    by_cases h : k0 = k
    · simp [dpop, h]
    · simpa [dpop, h] using ih.cons₂ (k0, w)

theorem dset_map_fst {α : Type} (m : List (String × α)) (k : String) (v : α) :
    (dset m k v).map Prod.fst =
      if k ∈ m.map Prod.fst then m.map Prod.fst else m.map Prod.fst ++ [k] := by
  induction m with
  | nil => simp [dset]
  | cons hd t ih =>
    obtain ⟨k0, w⟩ := hd
    by_cases h1 : k0 = k
    · subst h1
      simp [dset]
    · simp only [dset, if_neg h1, List.map_cons, ih]
      split_ifs with h2 h3
      · simp_all
      · simp_all [eq_comm]
      · simp_all [eq_comm]
      · simp_all

theorem nodup_keys_dset {α : Type} (m : List (String × α)) (k : String) (v : α)
    (h : (m.map Prod.fst).Nodup) : ((dset m k v).map Prod.fst).Nodup := by
  rw [dset_map_fst]
  split_ifs with hk
  · exact h
  · simp [List.nodup_append, h, hk]

theorem nodup_keys_dpop {α : Type} (m : List (String × α)) (k : String)
    (h : (m.map Prod.fst).Nodup) : ((dpop m k).map Prod.fst).Nodup :=
  h.sublist ((dpop_sublist m k).map Prod.fst)

theorem filter_key_nil {α : Type} (m : List (String × α)) (u : String)
    (h : u ∉ m.map Prod.fst) : m.filter (fun kv => kv.1 == u) = [] := by
  induction m with
  | nil => rfl
  | cons hd t ih =>
    obtain ⟨k0, w⟩ := hd
    simp only [List.map_cons, List.mem_cons, not_or] at h
    have hk : (k0 == u) = false := by simp [Ne.symm h.1]
    simp [List.filter, hk, ih h.2]

theorem length_filter_key_le_one {α : Type} (m : List (String × α)) (u : String)
    (h : (m.map Prod.fst).Nodup) :
    (m.filter (fun kv => kv.1 == u)).length ≤ 1 := by
  induction m with
  | nil => simp
  | cons hd t ih =>
    obtain ⟨k0, w⟩ := hd
    simp only [List.map_cons, List.nodup_cons] at h
    by_cases hk : k0 = u
    · subst hk
      rw [List.filter_cons_of_pos (by simp), filter_key_nil t k0 h.1]
      simp
    · rw [List.filter_cons_of_neg (by simp [hk])]
      exact ih h.2

/-! ## Login characterization lemmas -/

theorem login_unknown (s : ServerState) (sid u p : String)
    (h : dlookup s.users u = none) :
    login s sid u p =
      ({ s with users := dset s.users u p,
                connected_users := dset s.connected_users u sid,
                sid_to_user := dset s.sid_to_user sid u },
       .ok ((dset s.users u p).map Prod.fst)
           (s.groups.filter fun g => u ∈ g.2.members)) := by
  simp [login, get_users, get_user_list_public, get_groups, h, dlookup_dset]

theorem login_known_ok (s : ServerState) (sid u p : String)
    (h : dlookup s.users u = some p) :
    login s sid u p =
      ({ s with connected_users := dset s.connected_users u sid,
                sid_to_user := dset s.sid_to_user sid u },
       .ok (s.users.map Prod.fst)
           (s.groups.filter fun g => u ∈ g.2.members)) := by
  simp [login, get_users, get_user_list_public, get_groups, h]

theorem login_known_bad (s : ServerState) (sid u p pw : String)
    (h : dlookup s.users u = some pw) (hp : pw ≠ p) :
    login s sid u p = (s, .error "Invalid credentials") := by
  simp [login, get_users, h, hp]

/-! ## Claim C2: canonical conversation key -/

theorem charListLt_asymm :
    ∀ xs ys : List Char, charListLt xs ys = true → charListLt ys xs = true → False
  | [], [], h1, _ => by simp [charListLt] at h1
  | [], _ :: _, _, h2 => by simp [charListLt] at h2
  | _ :: _, [], h1, _ => by simp [charListLt] at h1
  | c :: cs, d :: ds, h1, h2 => by
    by_cases hcd : c < d
    · have hdc : ¬ d < c := lt_asymm hcd
      simp [charListLt, hcd, hdc] at h2
    · by_cases hdc : d < c
      · simp [charListLt, hcd, hdc] at h1
      · simp only [charListLt, if_neg hcd, if_neg hdc] at h1 h2
        exact charListLt_asymm cs ds h1 h2

theorem charListLt_conn :
    ∀ xs ys : List Char, charListLt xs ys = false → charListLt ys xs = false → xs = ys
  | [], [], _, _ => rfl
  | [], _ :: _, h1, _ => by simp [charListLt] at h1
  | _ :: _, [], _, h2 => by simp [charListLt] at h2
  | c :: cs, d :: ds, h1, h2 => by
    by_cases hcd : c < d
    · simp [charListLt, hcd] at h1
    · by_cases hdc : d < c
      · simp [charListLt, hdc] at h2
      · have hc : c = d := le_antisymm (le_of_not_lt hdc) (le_of_not_lt hcd)
        subst hc
        simp only [charListLt, if_neg hcd, if_neg hdc] at h1 h2
        rw [charListLt_conn cs ds h1 h2]

theorem string_data_inj {a b : String} (h : a.data = b.data) : a = b := by
  cases a
  cases b
  exact congrArg String.mk h

/-- C2: the canonical conversation key (db_utils._get_chat_filename) is
symmetric in the participants of a private conversation; for a group it
carries the group id unchanged inside the fixed filename frame and
ignores the first participant. -/
theorem canonical_key_spec (a b a2 : String) :
    get_chat_filename "private" a b = get_chat_filename "private" b a ∧
    get_chat_filename "group" a b = MSG_DIR ++ "/group_" ++ b ++ ".json" ∧
    get_chat_filename "group" a b = get_chat_filename "group" a2 b := by
  refine ⟨?_, rfl, rfl⟩
  simp only [get_chat_filename, if_neg (by decide : ¬ ("private" = "group"))]
  cases h1 : pyLe a b <;> cases h2 : pyLe b a
  · have g1 : charListLt b.data a.data = true := by simpa [pyLe] using h1
    have g2 : charListLt a.data b.data = true := by simpa [pyLe] using h2
    exact absurd (charListLt_asymm a.data b.data g2 g1) not_false
  · simp
  · simp
  · have g1 : charListLt b.data a.data = false := by simpa [pyLe] using h1
    have g2 : charListLt a.data b.data = false := by simpa [pyLe] using h2
    rw [string_data_inj (charListLt_conn a.data b.data g2 g1)]

/-! ## Claim C5: login auto-registration and plain-equality auth -/

/-- C5: a login with an unknown id succeeds and creates the identity
bound to the supplied secret; a later login with the same id and a
different secret fails with the structured error response; for a known
id, login succeeds iff the stored secret equals the provided one. -/
theorem login_auto_register (s : ServerState) (sid sid2 u p p2 : String) :
    (dlookup s.users u = none →
       (login s sid u p).2.isOk = true ∧
       dlookup (login s sid u p).1.users u = some p ∧
       (p2 ≠ p →
         (login (login s sid u p).1 sid2 u p2).2 = .error "Invalid credentials")) ∧
    (∀ pw, dlookup s.users u = some pw →
       ((login s sid u p).2.isOk = true ↔ pw = p)) := by
  constructor
  · intro h
    rw [login_unknown s sid u p h]
    refine ⟨rfl, by simp [dlookup_dset], ?_⟩
    intro hne
    rw [login_known_bad _ sid2 u p2 p (by simp [dlookup_dset]) (Ne.symm hne)]
  · intro pw h
    by_cases hp : pw = p
    · subst hp
      rw [login_known_ok s sid u pw h]
      simp [LoginResult.isOk]
    · rw [login_known_bad s sid u p pw h hp]
      simp [LoginResult.isOk, hp]

/-- Witness for C5 at concrete inputs: the id "newuser" is unknown to a
fresh server, logging in with secret "x" succeeds and registers it, and
a second login with secret "y" is rejected. -/
theorem login_auto_register_witness :
    dlookup (initState).users "newuser" = none ∧
    ("y" : String) ≠ "x" ∧
    ((login initState "sid1" "newuser" "x").2.isOk = true ∧
     dlookup (login initState "sid1" "newuser" "x").1.users "newuser" = some "x" ∧
     (("y" : String) ≠ "x" →
       (login (login initState "sid1" "newuser" "x").1 "sid2" "newuser" "y").2 =
         .error "Invalid credentials")) :=
  ⟨by decide, by decide,
   (login_auto_register initState "sid1" "sid2" "newuser" "x" "y").1 (by decide)⟩

/-! ## Claim C6: idempotent group membership -/

theorem dlookup_mem {α : Type} {m : List (String × α)} {k : String} {v : α}
    (h : dlookup m k = some v) : (k, v) ∈ m := by
  induction m with
  | nil => simp [dlookup] at h
  | cons hd t ih =>
    obtain ⟨k0, w⟩ := hd
    by_cases hk : k = k0
    · subst hk
      simp [dlookup] at h
      simp [h]
    · simp only [dlookup, if_neg hk] at h
      exact List.mem_cons_of_mem _ (ih h)

theorem mem_dset {α : Type} {m : List (String × α)} {k : String} {v : α}
    {e : String × α} (h : e ∈ dset m k v) : e = (k, v) ∨ e ∈ m := by
  induction m with
  | nil => simp [dset] at h; simp [h]
  | cons hd t ih =>
    obtain ⟨k0, w⟩ := hd
    by_cases hk : k0 = k
    · subst hk
      simp only [dset, if_pos rfl] at h
      rcases List.mem_cons.1 h with h | h
      · left; simpa using h
      · right; exact List.mem_cons_of_mem _ h
    · simp only [dset, if_neg hk] at h
      rcases List.mem_cons.1 h with h | h
      · right; simp [h]
      · rcases ih h with h | h
        · exact Or.inl h
        · exact Or.inr (List.mem_cons_of_mem _ h)

theorem add_member_to_group_preserves (s : ServerState) (gid u : String)
    (h : GroupsOk s) : GroupsOk (add_member_to_group s gid u).1 := by
  unfold add_member_to_group
  cases hg : dlookup (get_groups s) gid with
  | none => exact h
  | some g =>
    by_cases hm : u ∈ g.members
    · simp only [hm, if_pos]
      exact h
    · simp only [hm, if_neg, not_false_iff]
      intro e he
      rcases mem_dset he with he | he
      · subst he
        have hgnod : g.members.Nodup := h (gid, g) (dlookup_mem hg)
        simpa [List.nodup_append] using ⟨hgnod, hm⟩
      · exact h e he

theorem addCalls_preserves (cs : List (String × String)) (s : ServerState)
    (h : GroupsOk s) : GroupsOk (addCalls s cs) := by
  induction cs generalizing s with
  | nil => exact h
  | cons c cs ih => exact ih _ (add_member_to_group_preserves s c.1 c.2 h)

/-- C6: add_member_to_group returns true exactly when the group exists
and the identity is not yet a member (in which case it is appended);
unknown group and already-member both return false with the state
unchanged; a second identical call returns false; and any sequence of
calls keeps every member in every list at most once. -/
theorem add_member_idempotent (s : ServerState) (gid u : String) :
    (∀ g, dlookup s.groups gid = some g → u ∉ g.members →
       add_member_to_group s gid u =
         ({ s with groups := dset s.groups gid ⟨g.name, g.members ++ [u]⟩ }, true) ∧
       (add_member_to_group (add_member_to_group s gid u).1 gid u).2 = false) ∧
    (∀ g, dlookup s.groups gid = some g → u ∈ g.members →
       add_member_to_group s gid u = (s, false)) ∧
    (dlookup s.groups gid = none → add_member_to_group s gid u = (s, false)) ∧
    (GroupsOk s → ∀ cs gid2 g v, dlookup (addCalls s cs).groups gid2 = some g →
       g.members.count v ≤ 1) := by
  refine ⟨?_, ?_, ?_, ?_⟩
  · intro g hg hm
    have h1 : add_member_to_group s gid u =
        ({ s with groups := dset s.groups gid ⟨g.name, g.members ++ [u]⟩ }, true) := by
      simp [add_member_to_group, get_groups, hg, hm]
    refine ⟨h1, ?_⟩
    rw [h1]
    simp [add_member_to_group, get_groups, dlookup_dset]
  · intro g hg hm
    simp [add_member_to_group, get_groups, hg, hm]
  · intro hg
    simp [add_member_to_group, get_groups, hg]
  · intro h cs gid2 g v hg
    have hok := addCalls_preserves cs s h
    have hnod : g.members.Nodup := hok (gid2, g) (dlookup_mem hg)
    exact List.nodup_iff_count_le_one.1 hnod v

/-- Witness for C6 at concrete inputs: adding bob to g1 succeeds and
appends, the second identical call returns false, and after both calls
bob appears exactly once. -/
theorem add_member_idempotent_witness :
    (dlookup c6state.groups "g1" = some ⟨"G", ["alice"]⟩ ∧
     "bob" ∉ (["alice"] : List String) ∧ GroupsOk c6state) ∧
    (add_member_to_group c6state "g1" "bob" =
       ({ c6state with groups := dset c6state.groups "g1" ⟨"G", ["alice"] ++ ["bob"]⟩ },
        true) ∧
     (add_member_to_group (add_member_to_group c6state "g1" "bob").1 "g1" "bob").2 =
       false) ∧
    (dlookup (addCalls c6state [("g1", "bob"), ("g1", "bob")]).groups "g1" =
       some ⟨"G", ["alice", "bob"]⟩ ∧
     (Group.members ⟨"G", ["alice", "bob"]⟩).count "bob" ≤ 1) :=
  ⟨⟨by decide, by decide, by decide⟩,
   (add_member_idempotent c6state "g1" "bob").1 ⟨"G", ["alice"]⟩ (by decide) (by decide),
   by decide,
   (add_member_idempotent c6state "g1" "bob").2.2.2 (by decide)
     [("g1", "bob"), ("g1", "bob")] "g1" ⟨"G", ["alice", "bob"]⟩ "bob" (by decide)⟩

/-! ## Claim C10: handlers on a never-logged-in connection -/

/-- C10: for a connection handle absent from the session map,
fetch_history, send_message and create_new_group raise KeyError before
touching any persisted state (they do not return a structured error
status), while add_member performs no session lookup and runs its full
group mutation anyway, returning the structured ok status. -/
theorem unauthenticated_handlers (s : ServerState) (sid : String)
    (h : dlookup s.sid_to_user sid = none) :
    (∀ tt tid, fetch_history s sid tt tid = .error .keyError) ∧
    (∀ t tt tid txt, send_message s t sid tt tid txt = .error .keyError) ∧
    (∀ gid name, create_new_group s gid sid name = .error .keyError) ∧
    (∀ gid u g, dlookup s.groups gid = some g → u ∉ g.members →
       ∃ es, add_member s sid gid u =
         .ok ({ s with groups := dset s.groups gid ⟨g.name, g.members ++ [u]⟩ },
              es, Status.ok)) := by
  refine ⟨?_, ?_, ?_, ?_⟩
  · intro tt tid
    simp [fetch_history, h]
  · intro t tt tid txt
    simp [send_message, h]
  · intro gid name
    simp [create_new_group, h]
  · intro gid u g hg hm
    have h1 : add_member_to_group s gid u =
        ({ s with groups := dset s.groups gid ⟨g.name, g.members ++ [u]⟩ }, true) := by
      simp [add_member_to_group, get_groups, hg, hm]
    refine ⟨((dlookup s.connected_users u).toList.map fun nsid =>
              Emit.group_created nsid gid g.name (g.members ++ [u])) ++
            ((g.members ++ [u]).filterMap fun m =>
              (dlookup s.connected_users m).map fun msid =>
                Emit.member_added msid gid g.name (g.members ++ [u])), ?_⟩
    cases hcu : dlookup s.connected_users u with
    | none => simp [add_member, h1, get_groups, dlookup_dset, hcu]
    | some nsid => simp [add_member, h1, get_groups, dlookup_dset, hcu]

/-- Witness for C10 at concrete inputs: on the never-logged-in handle
"ghost", the three session-resolving handlers raise KeyError, while
add_member still mutates the group and answers ok. -/
theorem unauthenticated_handlers_witness :
    dlookup c10state.sid_to_user "ghost" = none ∧
    fetch_history c10state "ghost" "private" "alice" = .error .keyError ∧
    send_message c10state 1 "ghost" "private" "alice" "hi" = .error .keyError ∧
    create_new_group c10state "gid2" "ghost" "New" = .error .keyError ∧
    handlerOk (add_member c10state "ghost" "g1" "bob") = true ∧
    (addMemberStateOf (add_member c10state "ghost" "g1" "bob")).groups =
      dset c10state.groups "g1" ⟨"G", ["alice"] ++ ["bob"]⟩ := by
  have hnone : dlookup c10state.sid_to_user "ghost" = none := by decide
  have hmain := unauthenticated_handlers c10state "ghost" hnone
  obtain ⟨es, hes⟩ := hmain.2.2.2 "g1" "bob" ⟨"G", ["alice"]⟩ (by decide) (by decide)
  exact ⟨hnone, hmain.1 "private" "alice", hmain.2.1 1 "private" "alice" "hi",
         hmain.2.2.1 "gid2" "New", by rw [hes]; rfl, by rw [hes]; rfl⟩

/-! ## Claim C4: group fan-out completeness -/

/-- C4: a group send by sender a, members [a, b, c], online set {a, b},
produces exactly two receive_message deliveries — the echo to a's own
connection and one copy to b — nothing for c, and appends exactly one
entry to the group's conversation log. -/
theorem group_fanout (s : ServerState) (t : ℚ) (gid gname txt a b c sa sb : String)
    (hg : dlookup s.groups gid = some ⟨gname, [a, b, c]⟩)
    (hsid : dlookup s.sid_to_user sa = some a)
    (hca : dlookup s.connected_users a = some sa)
    (hcb : dlookup s.connected_users b = some sb)
    (hcc : dlookup s.connected_users c = none)
    (hba : b ≠ a) (hcae : c ≠ a) :
    send_message s t sa "group" gid txt =
      .ok (appendMsg s (get_chat_filename "group" a gid) ⟨a, txt, t⟩,
           [Emit.receive_message sa ⟨gid, a, txt, t, "group"⟩,
            Emit.receive_message sb ⟨gid, a, txt, t, "group"⟩]) := by
  have hgp : ("group" : String) ≠ "private" := by decide
  simp [send_message, hsid, save_message, appendMsg, get_groups, hg, hca, hcb, hcc,
    hba, hcae, hgp]

/-- Witness for C4 at concrete inputs. -/
theorem group_fanout_witness :
    (dlookup c4state.groups "g1" = some ⟨"G", ["a", "b", "c"]⟩ ∧
     dlookup c4state.sid_to_user "sa" = some "a" ∧
     dlookup c4state.connected_users "a" = some "sa" ∧
     dlookup c4state.connected_users "b" = some "sb" ∧
     dlookup c4state.connected_users "c" = none) ∧
    send_message c4state 7 "sa" "group" "g1" "hello" =
      .ok (appendMsg c4state (get_chat_filename "group" "a" "g1") ⟨"a", "hello", 7⟩,
           [Emit.receive_message "sa" ⟨"g1", "a", "hello", 7, "group"⟩,
            Emit.receive_message "sb" ⟨"g1", "a", "hello", 7, "group"⟩]) :=
  ⟨⟨by decide, by decide, by decide, by decide, by decide⟩,
   group_fanout c4state 7 "g1" "G" "hello" "a" "b" "c" "sa" "sb"
     (by decide) (by decide) (by decide) (by decide) (by decide)
     (by decide) (by decide)⟩

/-! ## Claim C7: stale-session disconnects and sends -/

/-- C7 counterexample: on the superseded connection sid1, a send is NOT
ignored — it is fully processed as identity u: the message is persisted
(the conversation log changes) and a delivery (the sender echo) is
emitted.  This refutes the claim that a stale send changes no persisted
state and triggers no delivery. -/
theorem stale_send_counterexample :
    dlookup c7state.connected_users "u" = some "sid2" ∧
    dlookup c7state.sid_to_user "sid1" = some "u" ∧
    send_message c7state 5 "sid1" "private" "bob" "hi" =
      .ok (appendMsg c7state (get_chat_filename "private" "u" "bob") ⟨"u", "hi", 5⟩,
           [Emit.receive_message "sid1" ⟨"bob", "u", "hi", 5, "private"⟩]) ∧
    load_history (appendMsg c7state (get_chat_filename "private" "u" "bob")
        ⟨"u", "hi", 5⟩) "private" "u" "bob" ≠
      load_history c7state "private" "u" "bob" := by
  decide

/-- C7 amended: a stale disconnect is ignored and leaves the newer
session's registry entry intact (connected_users is unchanged; only the
stale reverse-map entry is dropped); a stale send, however, is processed
as a normal send from the superseded identity: it persists the message
and emits the echo to the stale connection (plus the online private
peer's copy). -/
theorem stale_session_amended (s : ServerState) (sid sid2 u : String)
    (hmap : dlookup s.sid_to_user sid = some u)
    (hcur : dlookup s.connected_users u = some sid2)
    (hne : sid2 ≠ sid) :
    (disconnect s sid).connected_users = s.connected_users ∧
    (∀ t tid txt,
       send_message s t sid "private" tid txt =
         .ok (appendMsg s (get_chat_filename "private" u tid) ⟨u, txt, t⟩,
              Emit.receive_message sid ⟨tid, u, txt, t, "private"⟩ ::
                ((dlookup s.connected_users tid).toList.map fun tsid =>
                  Emit.receive_message tsid ⟨u, u, txt, t, "private"⟩))) := by
  constructor
  · have hcs : dlookup s.connected_users u ≠ some sid := by
      rw [hcur]
      simp [hne]
    simp [disconnect, hmap, hcs]
  · intro t tid txt
    cases hct : dlookup s.connected_users tid with
    | none => simp [send_message, hmap, save_message, appendMsg, hct]
    | some tsid => simp [send_message, hmap, save_message, appendMsg, hct]

/-- Witness for the amended C7 at concrete inputs. -/
theorem stale_session_amended_witness :
    (dlookup c7state.sid_to_user "sid1" = some "u" ∧
     dlookup c7state.connected_users "u" = some "sid2" ∧
     ("sid2" : String) ≠ "sid1") ∧
    (disconnect c7state "sid1").connected_users = c7state.connected_users ∧
    send_message c7state 6 "sid1" "private" "carol" "yo" =
      .ok (appendMsg c7state (get_chat_filename "private" "u" "carol") ⟨"u", "yo", 6⟩,
           Emit.receive_message "sid1" ⟨"carol", "u", "yo", 6, "private"⟩ ::
             ((dlookup c7state.connected_users "carol").toList.map fun tsid =>
               Emit.receive_message tsid ⟨"u", "u", "yo", 6, "private"⟩)) :=
  ⟨⟨by decide, by decide, by decide⟩,
   (stale_session_amended c7state "sid1" "sid2" "u" (by decide) (by decide)
     (by decide)).1,
   (stale_session_amended c7state "sid1" "sid2" "u" (by decide) (by decide)
     (by decide)).2 6 "carol" "yo"⟩

/-! ## Claim C1: single-session presence invariant -/

theorem login_cu_cases (s : ServerState) (sid u p : String) :
    (login s sid u p).1.connected_users = dset s.connected_users u sid ∨
    (login s sid u p).1.connected_users = s.connected_users := by
  cases h : dlookup s.users u with
  | none =>
    rw [login_unknown s sid u p h]
    left
    rfl
  | some pw =>
    by_cases hp : pw = p
    · subst hp
      rw [login_known_ok s sid u pw h]
      left
      rfl
    · rw [login_known_bad s sid u p pw h hp]
      right
      rfl

theorem disconnect_cu_cases (s : ServerState) (sid : String) :
    (disconnect s sid).connected_users = s.connected_users ∨
    ∃ u, (disconnect s sid).connected_users = dpop s.connected_users u := by
  unfold disconnect
  cases h : dlookup s.sid_to_user sid with
  | none => left; rfl
  | some u =>
    by_cases hc : dlookup s.connected_users u = some sid
    · right
      exact ⟨u, by simp [hc]⟩
    · left
      simp [hc]

theorem step_preserves_cuNodup (s : ServerState) (e : Event)
    (h : cuKeysNodup s) : cuKeysNodup (step s e) := by
  cases e with
  | elogin sid u p =>
    rcases login_cu_cases s sid u p with hc | hc
    · unfold cuKeysNodup step
      rw [hc]
      exact nodup_keys_dset _ _ _ h
    · unfold cuKeysNodup step
      rw [hc]
      exact h
  | edisconnect sid =>
    rcases disconnect_cu_cases s sid with hc | ⟨u, hc⟩
    · unfold cuKeysNodup step
      rw [hc]
      exact h
    · unfold cuKeysNodup step
      rw [hc]
      exact nodup_keys_dpop _ _ h

theorem run_cuNodup (evs : List Event) : cuKeysNodup (run evs) := by
  have hstep : ∀ s, cuKeysNodup s → cuKeysNodup (evs.foldl step s) := by
    induction evs with
    | nil => intro s h; exact h
    | cons e t ih => intro s h; exact ih _ (step_preserves_cuNodup s e h)
  exact hstep initState (by simp [cuKeysNodup, initState])

/-- C1: after any sequence of login/disconnect events on a fresh server,
the presence registry holds at most one connection-handle entry for any
identity; and a successful login for an identity resolves that identity
to the new handle (superseding any previous one). -/
theorem single_session_invariant (evs : List Event) (u : String) :
    ((run evs).connected_users.filter (fun kv => kv.1 == u)).length ≤ 1 ∧
    (∀ s sid p, (login s sid u p).2.isOk = true →
       dlookup (login s sid u p).1.connected_users u = some sid) := by
  constructor
  · exact length_filter_key_le_one _ u (run_cuNodup evs)
  · intro s sid p h
    cases hu : dlookup s.users u with
    | none =>
      rw [login_unknown s sid u p hu]
      simp [dlookup_dset]
    | some pw =>
      by_cases hp : pw = p
      · subst hp
        rw [login_known_ok s sid u pw hu]
        simp [dlookup_dset]
      · rw [login_known_bad s sid u p pw hu hp] at h
        simp [LoginResult.isOk] at h

/-- Witness for C1 at concrete inputs: after u logs in twice (two
handles), the registry has exactly one entry for u, and a fresh
successful login resolves u to the new handle. -/
theorem single_session_invariant_witness :
    ((run [Event.elogin "sid1" "u" "pw", Event.elogin "sid2" "u" "pw"]).connected_users.filter
        (fun kv => kv.1 == "u")).length ≤ 1 ∧
    (login initState "sid3" "u" "pw").2.isOk = true ∧
    dlookup (login initState "sid3" "u" "pw").1.connected_users "u" = some "sid3" :=
  ⟨(single_session_invariant
      [Event.elogin "sid1" "u" "pw", Event.elogin "sid2" "u" "pw"] "u").1,
   by decide,
   (single_session_invariant [] "u").2 initState "sid3" "pw" (by decide)⟩

/-! ## Claims C3 and C8: conversation logs -/

theorem save_message_fst (s : ServerState) (t : ℚ) (tt sender tid txt : String) :
    (save_message s t tt sender tid txt).1 =
      appendMsg s (get_chat_filename tt sender tid) ⟨sender, txt, t⟩ := rfl

theorem chatLog_appendMsg (s : ServerState) (f : String) (m : Msg) (f2 : String) :
    chatLog (appendMsg s f m) f2 =
      if f2 = f then chatLog s f2 ++ [m] else chatLog s f2 := by
  unfold appendMsg chatLog
  simp only [dlookup_dset]
  split_ifs with h
  · subst h
    rfl
  · rfl

theorem runSaves_chatLog (rs : List SaveReq) (s : ServerState) (f : String)
    (hf : ∀ r ∈ rs, r.file = f) :
    chatLog (runSaves s rs) f = chatLog s f ++ rs.map SaveReq.msg := by
  induction rs generalizing s with
  | nil => simp [runSaves]
  | cons r rs ih =>
    have hr : get_chat_filename r.target_type r.sender r.target_id = f :=
      hf r (by simp)
    unfold runSaves
    rw [ih _ (fun x hx => hf x (by simp [hx])), save_message_fst, chatLog_appendMsg,
      if_pos hr.symm]
    simp [SaveReq.msg]

theorem runSaves_sid_to_user (rs : List SaveReq) (s : ServerState) :
    (runSaves s rs).sid_to_user = s.sid_to_user := by
  induction rs generalizing s with
  | nil => rfl
  | cons r rs ih => rw [runSaves, ih]; rfl

/-- C3: after N completed sends all addressing one conversation (empty
beforehand), fetching that conversation's history returns exactly the N
messages in append-completion order, the server state is returned
untouched (the fetch is read-only, hence re-fetching yields the
identical sequence), and load_history agrees. -/
theorem history_append_order (s : ServerState) (rs : List SaveReq)
    (sid tt u tid f : String)
    (hf : ∀ r ∈ rs, r.file = f)
    (hread : get_chat_filename tt u tid = f)
    (hempty : chatLog s f = [])
    (hsid : dlookup s.sid_to_user sid = some u) :
    fetch_history (runSaves s rs) sid tt tid =
      .ok (runSaves s rs, rs.map SaveReq.msg) ∧
    load_history (runSaves s rs) tt u tid = rs.map SaveReq.msg := by
  have hl : load_history (runSaves s rs) tt u tid = rs.map SaveReq.msg := by
    unfold load_history
    rw [hread, runSaves_chatLog rs s f hf, hempty]
    simp
  refine ⟨?_, hl⟩
  unfold fetch_history
  rw [runSaves_sid_to_user, hsid]
  simp [hl]

/-- Witness for C3 at concrete inputs. -/
theorem history_append_order_witness :
    (∀ r ∈ c3reqs, r.file = get_chat_filename "private" "alice" "bob") ∧
    chatLog c3state (get_chat_filename "private" "alice" "bob") = [] ∧
    dlookup c3state.sid_to_user "sid" = some "alice" ∧
    fetch_history (runSaves c3state c3reqs) "sid" "private" "bob" =
      .ok (runSaves c3state c3reqs,
           [⟨"alice", "hi", 1⟩, ⟨"bob", "yo", 2⟩]) :=
  ⟨by decide, by decide, by decide,
   (history_append_order c3state c3reqs "sid" "private" "alice" "bob"
     (get_chat_filename "private" "alice" "bob")
     (by decide) rfl (by decide) (by decide)).1⟩

theorem runSaves_mono (rs : List SaveReq) (s : ServerState) (c : ℚ)
    (hchain : List.Chain (· ≤ ·) c (rs.map SaveReq.t))
    (hinv : ∀ f, List.Chain' (· ≤ ·) (tsOf s f) ∧
      ∀ m ∈ chatLog s f, m.timestamp ≤ c) :
    ∀ f, List.Chain' (· ≤ ·) (tsOf (runSaves s rs) f) := by
  induction rs generalizing s c with
  | nil => intro f; exact (hinv f).1
  | cons r rs ih =>
    simp only [List.map_cons, List.chain_cons] at hchain
    unfold runSaves
    apply ih _ r.t hchain.2
    intro f
    rw [save_message_fst]
    constructor
    · unfold tsOf
      rw [chatLog_appendMsg]
      split_ifs with hfile
      · rw [List.map_append]
        refine List.Chain'.append (hinv f).1 (List.chain'_singleton _) ?_
        intro x hx y hy
        obtain ⟨hne, hxl⟩ := List.mem_getLast?_eq_getLast hx
        have hmem : x ∈ (chatLog s f).map Msg.timestamp := hxl ▸ List.getLast_mem hne
        obtain ⟨m, hm, hmx⟩ := List.mem_map.1 hmem
        have hy2 : r.t = y := by simpa using hy
        rw [← hy2, ← hmx]
        exact le_trans ((hinv f).2 m hm) hchain.1
      · exact (hinv f).1
    · intro m hm
      rw [chatLog_appendMsg] at hm
      split_ifs at hm with hfile
      · rcases List.mem_append.1 hm with hm | hm
        · exact le_trans ((hinv f).2 m hm) hchain.1
        · simp only [List.mem_singleton] at hm
          rw [hm]
      · exact le_trans ((hinv f).2 m hm) hchain.1

/-- C8: starting from an empty data directory, if the successive clock
readings are non-decreasing then every conversation log's timestamps are
non-decreasing in append order; and each save only appends — the old
log of every conversation file is a prefix of the new one (entries are
never edited or removed). -/
theorem timestamps_monotone (rs : List SaveReq)
    (hc : List.Chain' (· ≤ ·) (rs.map SaveReq.t)) :
    (∀ tt u tid, List.Chain' (· ≤ ·)
        ((load_history (runSaves initState rs) tt u tid).map Msg.timestamp)) ∧
    (∀ s t tt sender tid txt f,
        chatLog s f <+: chatLog (save_message s t tt sender tid txt).1 f) := by
  constructor
  · intro tt u tid
    unfold load_history
    have hmono : ∀ f, List.Chain' (· ≤ ·) (tsOf (runSaves initState rs) f) := by
      cases rs with
      | nil =>
        intro f
        simp [runSaves, tsOf, initState, chatLog, dlookup]
      | cons r rs2 =>
        apply runSaves_mono (r :: rs2) initState r.t
        · simp only [List.map_cons, List.chain_cons]
          exact ⟨le_refl _, hc⟩
        · intro f
          constructor
          · simp [tsOf, initState, chatLog, dlookup]
          · intro m hm
            simp [initState, chatLog, dlookup] at hm
    exact hmono (get_chat_filename tt u tid)
  · intro s t tt sender tid txt f
    rw [save_message_fst, chatLog_appendMsg]
    split_ifs with h
    · exact List.prefix_append _ _
    · exact List.prefix_refl _

/-- Witness for C8 at concrete inputs. -/
theorem timestamps_monotone_witness :
    List.Chain' (· ≤ ·) (c8reqs.map SaveReq.t) ∧
    List.Chain' (· ≤ ·)
      ((load_history (runSaves initState c8reqs) "private" "alice" "bob").map
        Msg.timestamp) ∧
    chatLog c4state "somefile" <+:
      chatLog (save_message c4state 3 "private" "alice" "bob" "hi").1 "somefile" :=
  ⟨by norm_num [c8reqs, SaveReq.t, List.chain'_cons],
   (timestamps_monotone c8reqs
     (by norm_num [c8reqs, SaveReq.t, List.chain'_cons])).1 "private" "alice" "bob",
   (timestamps_monotone c8reqs
     (by norm_num [c8reqs, SaveReq.t, List.chain'_cons])).2 c4state 3 "private"
     "alice" "bob" "hi" "somefile"⟩

/-! ## Claim C9: concurrent read-modify-write on one group -/

/-- C9: two concurrent membership additions to the same group both take
effect.  add_member_to_group's read-modify-write block contains no await
(suspension point), so under the single-threaded event loop the two
blocks execute atomically in one of the two orders; in both orders the
persisted group ends up containing both new members — no lost update. -/
theorem concurrent_adds_no_lost_update (s : ServerState) (gid : String) (g : Group)
    (u1 u2 : String)
    (hg : dlookup s.groups gid = some g)
    (hne : u1 ≠ u2) (h1 : u1 ∉ g.members) (h2 : u2 ∉ g.members) :
    (dlookup (add_member_to_group (add_member_to_group s gid u1).1 gid u2).1.groups gid =
       some ⟨g.name, (g.members ++ [u1]) ++ [u2]⟩ ∧
     u1 ∈ (g.members ++ [u1]) ++ [u2] ∧ u2 ∈ (g.members ++ [u1]) ++ [u2]) ∧
    (dlookup (add_member_to_group (add_member_to_group s gid u2).1 gid u1).1.groups gid =
       some ⟨g.name, (g.members ++ [u2]) ++ [u1]⟩ ∧
     u1 ∈ (g.members ++ [u2]) ++ [u1] ∧ u2 ∈ (g.members ++ [u2]) ++ [u1]) := by
  have e1 : add_member_to_group s gid u1 =
      ({ s with groups := dset s.groups gid ⟨g.name, g.members ++ [u1]⟩ }, true) := by
    simp [add_member_to_group, get_groups, hg, h1]
  have e2 : add_member_to_group s gid u2 =
      ({ s with groups := dset s.groups gid ⟨g.name, g.members ++ [u2]⟩ }, true) := by
    simp [add_member_to_group, get_groups, hg, h2]
  have m21 : u2 ∉ g.members ++ [u1] := by simp [h2, Ne.symm hne]
  have m12 : u1 ∉ g.members ++ [u2] := by simp [h1, hne]
  constructor
  · rw [e1]
    have hl : dlookup (dset s.groups gid ⟨g.name, g.members ++ [u1]⟩) gid =
        some ⟨g.name, g.members ++ [u1]⟩ := by simp [dlookup_dset]
    refine ⟨?_, by simp, by simp⟩
    simp [add_member_to_group, get_groups, hl, m21, dlookup_dset]
  · rw [e2]
    have hl : dlookup (dset s.groups gid ⟨g.name, g.members ++ [u2]⟩) gid =
        some ⟨g.name, g.members ++ [u2]⟩ := by simp [dlookup_dset]
    refine ⟨?_, by simp, by simp⟩
    simp [add_member_to_group, get_groups, hl, m12, dlookup_dset]

/-- Witness for C9 at concrete inputs: adding bob and carol to g1 in
either order leaves both in the persisted member list. -/
theorem concurrent_adds_no_lost_update_witness :
    (dlookup c6state.groups "g1" = some ⟨"G", ["alice"]⟩ ∧
     ("bob" : String) ≠ "carol") ∧
    ((dlookup (add_member_to_group (add_member_to_group c6state "g1" "bob").1 "g1"
        "carol").1.groups "g1" =
       some ⟨"G", (["alice"] ++ ["bob"]) ++ ["carol"]⟩ ∧
      "bob" ∈ (["alice"] ++ ["bob"]) ++ ["carol"] ∧
      "carol" ∈ (["alice"] ++ ["bob"]) ++ ["carol"]) ∧
     (dlookup (add_member_to_group (add_member_to_group c6state "g1" "carol").1 "g1"
        "bob").1.groups "g1" =
       some ⟨"G", (["alice"] ++ ["carol"]) ++ ["bob"]⟩ ∧
      "bob" ∈ (["alice"] ++ ["carol"]) ++ ["bob"] ∧
      "carol" ∈ (["alice"] ++ ["carol"]) ++ ["bob"])) :=
  ⟨⟨by decide, by decide⟩,
   concurrent_adds_no_lost_update c6state "g1" ⟨"G", ["alice"]⟩ "bob" "carol"
     (by decide) (by decide) (by decide) (by decide)⟩

end ThreadTalk
